import Mathlib

/-!
# NativeMenu::Menu — option stepper and key-repeat table

A shallow embedding of the parts of `src/menu.h` that carry behaviour:

* the menu-state members read and written by the option stepper
  (`optioncount`, `currentoption`, `optionpress`, `leftpress`, `rightpress`),
* the template member function `Menu::processOptionItemControls<T>`,
  instantiated at the mathematical integers (`processOptionItemControls`) and
  at the 32-bit `int` (`processOptionItemControls32`),
* the navigation constants `menuTimeDelays`, `menuTimeRepeat`, `menuTime`.

The C++ function mutates `var` (passed by reference) and the members of
`*this`, and returns a `bool`.  Here the call is a pure function from the
state before the call to the state after it together with the returned flag.

The template is generic in the value type `T`.  `processOptionItemControls`
instantiates it at the mathematical integers, where `-=` and `+=` are exact.
`processOptionItemControls32` instantiates it at `int`: a value is an integer
in `[-2147483648, 2147483647]` and the results of `var -= step` and
`var += step` are reduced into that range modulo `2 ^ 32`, as the compiled
code does.  The two instances take the same branch on the same input and
differ only in the value produced by a step that leaves the `int` range
(`pOIC32_eq`).
-/

namespace NativeMenu

/-- The members of `Menu` that make up the menu state used by the option
stepper (`menu.h`, "Members for menu state"), with their types. -/
structure Menu where
  optioncount : Int
  currentoption : Int
  optionpress : Bool
  leftpress : Bool
  rightpress : Bool
  deriving DecidableEq, Repr

/-- The in-class initialisers of the menu-state members. -/
def Menu.init : Menu :=
  { optioncount := 0
    currentoption := 0
    optionpress := false
    leftpress := false
    rightpress := false }

/-- Everything a call of `processOptionItemControls` leaves behind: the menu
members, the referenced variable `var`, and the returned `bool`. -/
structure Outcome where
  menu : Menu
  var : Int
  ret : Bool
  deriving DecidableEq, Repr

/-- The function `Menu::processOptionItemControls` at the mathematical
integers, statement by statement.  Each early `return true` of the source is a
leaf of the conditional. -/
def processOptionItemControls (m : Menu) (var min max step : Int) : Outcome :=
  if m.currentoption = m.optioncount then
    if m.leftpress then
      -- if (var <= min) var = max; else var -= step;
      let var1 := if var ≤ min then max else var - step
      -- leftpress = false; return true;
      { menu := { m with leftpress := false }, var := var1, ret := true }
    else
      -- if (var < min) var = max;
      let var1 := if var < min then max else var
      if m.rightpress then
        -- if (var >= max) var = min; else var += step;
        let var2 := if var1 ≥ max then min else var1 + step
        -- rightpress = false; return true;
        { menu := { m with rightpress := false }, var := var2, ret := true }
      else
        -- if (var > max) var = min;
        let var2 := if var1 > max then min else var1
        -- if (optionpress && currentoption == optioncount) return true; return false;
        { menu := m, var := var2,
          ret := m.optionpress && decide (m.currentoption = m.optioncount) }
  else
    -- if (optionpress && currentoption == optioncount) return true; return false;
    { menu := m, var := var,
      ret := m.optionpress && decide (m.currentoption = m.optioncount) }

/-- The values an `int` (32 bits, two's complement) can hold. -/
@[reducible] def inInt32 (x : Int) : Prop := -2147483648 ≤ x ∧ x ≤ 2147483647

/-- The `int` that results from an arithmetic operation whose mathematical
result is `x`: `x` reduced modulo `2 ^ 32` into `[-2147483648, 2147483647]`. -/
def wrapInt32 (x : Int) : Int := (x + 2147483648) % 4294967296 - 2147483648

/-- The function `Menu::processOptionItemControls` at `T = int`, statement by
statement, with `var -= step` and `var += step` in 32-bit arithmetic. -/
def processOptionItemControls32 (m : Menu) (var min max step : Int) : Outcome :=
  if m.currentoption = m.optioncount then
    if m.leftpress then
      -- if (var <= min) var = max; else var -= step;
      let var1 := if var ≤ min then max else wrapInt32 (var - step)
      -- leftpress = false; return true;
      { menu := { m with leftpress := false }, var := var1, ret := true }
    else
      -- if (var < min) var = max;
      let var1 := if var < min then max else var
      if m.rightpress then
        -- if (var >= max) var = min; else var += step;
        let var2 := if var1 ≥ max then min else wrapInt32 (var1 + step)
        -- rightpress = false; return true;
        { menu := { m with rightpress := false }, var := var2, ret := true }
      else
        -- if (var > max) var = min;
        let var2 := if var1 > max then min else var1
        -- if (optionpress && currentoption == optioncount) return true; return false;
        { menu := m, var := var2,
          ret := m.optionpress && decide (m.currentoption = m.optioncount) }
  else
    -- if (optionpress && currentoption == optioncount) return true; return false;
    { menu := m, var := var,
      ret := m.optionpress && decide (m.currentoption = m.optioncount) }

/-- The value of `var` after a run of calls with the same bounds and step.
Between two calls the rest of the menu may set the members as it likes, so
each call comes with its own menu state; `var` is only written by the calls. -/
def runCalls (ms : List Menu) (var min max step : Int) : Int :=
  ms.foldl (fun v m => (processOptionItemControls m v min max step).var) var

/-- The initialiser list of `std::vector<int> menuTimeDelays`. -/
def menuTimeDelays : List Int := [240, 120, 75, 40, 20, 10]

/-- The conversion of an `int` to `unsigned int` (32 bits). -/
def toUnsigned (x : Int) : Nat := (x % 2 ^ 32).toNat

/-- The member `const unsigned int menuTimeRepeat = menuTimeDelays[0];`. -/
def menuTimeRepeat : Nat := toUnsigned (menuTimeDelays.getD 0 0)

/-- The member `unsigned int menuTime = menuTimeRepeat;`. -/
def menuTime : Nat := menuTimeRepeat

/-! ## Helper lemmas -/

/-- A call never writes `optionpress`, `currentoption` or `optioncount`. -/
theorem pOIC_frame (m : Menu) (var min max step : Int) :
    (processOptionItemControls m var min max step).menu.optionpress = m.optionpress ∧
    (processOptionItemControls m var min max step).menu.currentoption = m.currentoption ∧
    (processOptionItemControls m var min max step).menu.optioncount = m.optioncount := by
  unfold processOptionItemControls
  split_ifs <;> simp

/-- One call keeps a value on the grid `min, min + step, …, max`. -/
theorem pOIC_grid (m : Menu) (v min max step : Int)
    (hs : 0 < step) (h1 : min ≤ v) (h2 : v ≤ max)
    (hv : step ∣ (v - min)) (hm : step ∣ (max - min)) :
    min ≤ (processOptionItemControls m v min max step).var ∧
    (processOptionItemControls m v min max step).var ≤ max ∧
    step ∣ ((processOptionItemControls m v min max step).var - min) := by
  obtain ⟨a, ha⟩ := hv
  obtain ⟨b, hb⟩ := hm
  have hmm : min ≤ max := le_trans h1 h2
  unfold processOptionItemControls
  by_cases hsel : m.currentoption = m.optioncount
  · by_cases hl : m.leftpress = true
    · by_cases hle : v ≤ min
      · simp only [hsel, hl, hle, if_true, ↓reduceIte]
        exact ⟨hmm, le_refl _, ⟨b, hb⟩⟩
      · simp only [hsel, hl, hle, if_true, if_false, Bool.false_eq_true, ↓reduceIte]
        have hpos : 0 < step * a := by omega
        have ha1 : 1 ≤ a := by
          by_contra hcon
          have : a ≤ 0 := by omega
          have : step * a ≤ 0 := Int.mul_nonpos_of_nonneg_of_nonpos (le_of_lt hs) this
          omega
        have : step * 1 ≤ step * a := Int.mul_le_mul_of_nonneg_left ha1 (le_of_lt hs)
        refine ⟨by omega, by omega, ⟨a - 1, ?_⟩⟩
        rw [Int.mul_sub]; omega
    · have hnlt : ¬ v < min := by omega
      by_cases hr : m.rightpress = true
      · by_cases hge : v ≥ max
        · simp only [hsel, hl, hnlt, hr, hge, if_true, if_false, Bool.false_eq_true, ↓reduceIte]
          exact ⟨le_refl _, hmm, ⟨0, by simp⟩⟩
        · simp only [hsel, hl, hnlt, hr, hge, if_true, if_false, Bool.false_eq_true, ↓reduceIte]
          have hd : max - v = step * (b - a) := by rw [Int.mul_sub]; omega
          have hba : 1 ≤ b - a := by
            by_contra hcon
            have : b - a ≤ 0 := by omega
            have : step * (b - a) ≤ 0 :=
              Int.mul_nonpos_of_nonneg_of_nonpos (le_of_lt hs) this
            omega
          have : step * 1 ≤ step * (b - a) :=
            Int.mul_le_mul_of_nonneg_left hba (le_of_lt hs)
          refine ⟨by omega, by omega, ⟨a + 1, ?_⟩⟩
          rw [Int.mul_add]; omega
      · have hngt : ¬ v > max := by omega
        simp only [hsel, hl, hnlt, hr, hngt, if_true, if_false, Bool.false_eq_true, ↓reduceIte]
        exact ⟨h1, h2, ⟨a, ha⟩⟩
  · simp only [hsel, if_false, ↓reduceIte]
    exact ⟨h1, h2, ⟨a, ha⟩⟩

/-- A run of calls keeps a value on the grid. -/
theorem runCalls_grid (ms : List Menu) (min max step : Int)
    (hs : 0 < step) (hm : step ∣ (max - min)) :
    ∀ v : Int, min ≤ v → v ≤ max → step ∣ (v - min) →
      min ≤ runCalls ms v min max step ∧ runCalls ms v min max step ≤ max ∧
      step ∣ (runCalls ms v min max step - min) := by
  induction ms with
  | nil => intro v h1 h2 hv; exact ⟨h1, h2, hv⟩
  | cons m rest ih =>
    intro v h1 h2 hv
    obtain ⟨g1, g2, g3⟩ := pOIC_grid m v min max step hs h1 h2 hv hm
    exact ih _ g1 g2 g3

/-- An arithmetic result within the `int` range is not changed by the
reduction. -/
theorem wrapInt32_of_inInt32 (x : Int) (h : inInt32 x) : wrapInt32 x = x := by
  obtain ⟨h1, h2⟩ := h
  unfold wrapInt32
  omega

/-- The result of the reduction is an `int`. -/
theorem wrapInt32_inInt32 (x : Int) : inInt32 (wrapInt32 x) := by
  unfold wrapInt32 inInt32
  omega

/-- The two instances of the template agree on the menu members and on the
returned flag, and agree on the value unless a step is taken whose result
leaves the `int` range. -/
theorem pOIC32_eq (m : Menu) (v min max step : Int) :
    (processOptionItemControls32 m v min max step).menu
      = (processOptionItemControls m v min max step).menu ∧
    (processOptionItemControls32 m v min max step).ret
      = (processOptionItemControls m v min max step).ret ∧
    ((m.currentoption = m.optioncount → m.leftpress = true → ¬ v ≤ min →
        inInt32 (v - step)) →
     (m.currentoption = m.optioncount → m.leftpress = false → m.rightpress = true →
        ¬ (if v < min then max else v) ≥ max →
        inInt32 ((if v < min then max else v) + step)) →
     (processOptionItemControls32 m v min max step).var
       = (processOptionItemControls m v min max step).var) := by
  unfold processOptionItemControls32 processOptionItemControls
  by_cases hsel : m.currentoption = m.optioncount
  · cases hl : m.leftpress
    · cases hr : m.rightpress
      · simp [hsel]
      · by_cases hge : (if v < min then max else v) ≥ max
        · simp [hsel, hge]
        · refine ⟨by simp [hsel], by simp [hsel], ?_⟩
          intro _ hadd
          have hw := wrapInt32_of_inInt32 _ (hadd hsel rfl rfl hge)
          simp only [hsel, if_true, Bool.false_eq_true, if_false, hge, hw]
    · by_cases hle : v ≤ min
      · simp [hsel, hle]
      · refine ⟨by simp [hsel], by simp [hsel], ?_⟩
        intro hsub _
        have hw := wrapInt32_of_inInt32 _ (hsub hsel rfl hle)
        simp only [hsel, if_true, hle, if_false, hw]
  · simp [hsel]

/-- A call at `T = int` never writes `optionpress`, `currentoption` or
`optioncount`. -/
theorem pOIC32_frame (m : Menu) (var min max step : Int) :
    (processOptionItemControls32 m var min max step).menu.optionpress = m.optionpress ∧
    (processOptionItemControls32 m var min max step).menu.currentoption
      = m.currentoption ∧
    (processOptionItemControls32 m var min max step).menu.optioncount
      = m.optioncount := by
  rw [(pOIC32_eq m var min max step).1]
  exact pOIC_frame m var min max step

/-- On the grid `min, min + step, …, max` with `int` bounds no step leaves the
`int` range, so the two instances of the template return the same value. -/
theorem pOIC32_eq_on_grid (m : Menu) (v min max step : Int)
    (hmin : inInt32 min) (hmax : inInt32 max)
    (hs : 0 < step) (h1 : min ≤ v) (h2 : v ≤ max)
    (hv : step ∣ (v - min)) (hm : step ∣ (max - min)) :
    (processOptionItemControls32 m v min max step).var
      = (processOptionItemControls m v min max step).var := by
  have hnlt : ¬ v < min := by omega
  refine (pOIC32_eq m v min max step).2.2 ?_ ?_
  · intro hsel hl hle
    have hg := pOIC_grid m v min max step hs h1 h2 hv hm
    simp only [processOptionItemControls, hsel, hl, hle, if_true, if_false] at hg
    obtain ⟨g1, g2, _⟩ := hg
    obtain ⟨a1, a2⟩ := hmin
    obtain ⟨b1, b2⟩ := hmax
    exact ⟨by omega, by omega⟩
  · intro hsel hl hr hge
    have hg := pOIC_grid m v min max step hs h1 h2 hv hm
    simp only [hnlt, if_false] at hge
    simp only [processOptionItemControls, hsel, hl, hr, hnlt, hge, if_true, if_false,
      Bool.false_eq_true] at hg
    obtain ⟨g1, g2, _⟩ := hg
    obtain ⟨a1, a2⟩ := hmin
    obtain ⟨b1, b2⟩ := hmax
    simp only [hnlt, if_false]
    exact ⟨by omega, by omega⟩

/-! ## The stepper on the selected option -/

/-- C1 (as stated) fails at `T = int`: for the selected option with a right
edge, `v = 2147483646` within `[0, 2147483647]` and `step = 2`, the new value
is `-2147483648`, not `v + step`; with a left edge, `v = -2147483647` within
`[-2147483648, 0]` and `step = 2`, the new value is `2147483647`, not
`v - step`.  All arguments are values of type `int`. -/
theorem step_rule_overflows :
    inInt32 2147483646 ∧ inInt32 0 ∧ inInt32 2147483647 ∧ inInt32 2 ∧
    inInt32 (-2147483647) ∧ inInt32 (-2147483648) ∧
    (processOptionItemControls32
      { optioncount := 0, currentoption := 0, optionpress := false,
        leftpress := false, rightpress := true } 2147483646 0 2147483647 2).var
      = -2147483648 ∧
    (processOptionItemControls32
      { optioncount := 0, currentoption := 0, optionpress := false,
        leftpress := true, rightpress := false } (-2147483647) (-2147483648) 0 2).var
      = 2147483647 ∧
    ¬ (∀ (m : Menu) (v min max step : Int),
        inInt32 v → inInt32 min → inInt32 max → inInt32 step →
        m.currentoption = m.optioncount → min ≤ v → v ≤ max →
        m.rightpress = true → m.leftpress = false →
        (processOptionItemControls32 m v min max step).var
          = if v ≥ max then min else v + step) ∧
    ¬ (∀ (m : Menu) (v min max step : Int),
        inInt32 v → inInt32 min → inInt32 max → inInt32 step →
        m.currentoption = m.optioncount → min ≤ v → v ≤ max →
        m.leftpress = true →
        (processOptionItemControls32 m v min max step).var
          = if v ≤ min then max else v - step) := by
  refine ⟨by decide, by decide, by decide, by decide, by decide, by decide,
    by decide, by decide, ?_, ?_⟩
  · intro h
    have h0 := h { optioncount := 0, currentoption := 0, optionpress := false,
                   leftpress := false, rightpress := true } 2147483646 0 2147483647 2
      (by decide) (by decide) (by decide) (by decide) rfl (by decide) (by decide) rfl rfl
    revert h0
    decide
  · intro h
    have h0 := h { optioncount := 0, currentoption := 0, optionpress := false,
                   leftpress := true, rightpress := false }
      (-2147483647) (-2147483648) 0 2
      (by decide) (by decide) (by decide) (by decide) rfl (by decide) (by decide) rfl
    revert h0
    decide

/-- C1 (amended): step-and-wrap rule in `int` arithmetic.  For the selected
option and a value within `[min, max]`, a left edge gives `max` when `v ≤ min`
and otherwise `v - step` as computed in 32-bit arithmetic, which is the
mathematical `v - step` whenever that is a value of type `int`; a right edge
without a left edge gives `min` when `v ≥ max` and otherwise `v + step` as
computed in 32-bit arithmetic, which is the mathematical `v + step` whenever
that is a value of type `int`.  With `min = 0`, `max = 10`, `step = 2`: left
from `0` gives `10`, right from `10` gives `0`, right from `4` gives `6`. -/
theorem stepper_step_and_wrap (m : Menu) (v min max step : Int)
    (hsel : m.currentoption = m.optioncount) (h1 : min ≤ v) (h2 : v ≤ max) :
    (m.leftpress = true →
      (processOptionItemControls32 m v min max step).var
        = if v ≤ min then max else wrapInt32 (v - step)) ∧
    (m.leftpress = true → inInt32 (v - step) →
      (processOptionItemControls32 m v min max step).var
        = if v ≤ min then max else v - step) ∧
    (m.rightpress = true → m.leftpress = false →
      (processOptionItemControls32 m v min max step).var
        = if v ≥ max then min else wrapInt32 (v + step)) ∧
    (m.rightpress = true → m.leftpress = false → inInt32 (v + step) →
      (processOptionItemControls32 m v min max step).var
        = if v ≥ max then min else v + step) ∧
    (m.leftpress = true → (processOptionItemControls32 m 0 0 10 2).var = 10) ∧
    (m.rightpress = true → m.leftpress = false →
      (processOptionItemControls32 m 10 0 10 2).var = 0 ∧
      (processOptionItemControls32 m 4 0 10 2).var = 6) := by
  have hnlt : ¬ v < min := by omega
  have _hmm : min ≤ max := le_trans h1 h2
  refine ⟨?_, ?_, ?_, ?_, ?_, ?_⟩
  · intro hl
    simp [processOptionItemControls32, hsel, hl]
  · intro hl hin
    simp [processOptionItemControls32, hsel, hl, wrapInt32_of_inInt32 _ hin]
  · intro hr hl
    simp [processOptionItemControls32, hsel, hl, hr, hnlt]
  · intro hr hl hin
    simp [processOptionItemControls32, hsel, hl, hr, hnlt, wrapInt32_of_inInt32 _ hin]
  · intro hl
    simp [processOptionItemControls32, hsel, hl]
  · intro hr hl
    simp [processOptionItemControls32, hsel, hl, hr, wrapInt32]

/-- Witness for C1 (amended): a selected option at value `4` in `[0, 10]` with
a right edge; `4 + 2` is a value of type `int` and the new value is `6`. -/
theorem stepper_step_and_wrap_witness :
    (processOptionItemControls32
      { optioncount := 3, currentoption := 3, optionpress := false,
        leftpress := false, rightpress := true } 4 0 10 2).var
      = if (4 : Int) ≥ 10 then 0 else 4 + 2 :=
  (stepper_step_and_wrap
    { optioncount := 3, currentoption := 3, optionpress := false,
      leftpress := false, rightpress := true } 4 0 10 2 rfl (by decide) (by decide)).2.2.2.1
    rfl rfl (by decide)

/-- C3: accept signals without changing the value.  For the selected option
with `optionpress` set, no left or right edge and `min ≤ v ≤ max`, the call
returns `true` and the value is still `v` (the menu members are untouched as
well). -/
theorem accept_keeps_value (m : Menu) (v min max step : Int)
    (hsel : m.currentoption = m.optioncount) (hop : m.optionpress = true)
    (hl : m.leftpress = false) (hr : m.rightpress = false)
    (h1 : min ≤ v) (h2 : v ≤ max) :
    (processOptionItemControls m v min max step).ret = true ∧
    (processOptionItemControls m v min max step).var = v ∧
    (processOptionItemControls m v min max step).menu = m := by
  have hnlt : ¬ v < min := by omega
  have hngt : ¬ max < v := by omega
  simp [processOptionItemControls, hsel, hop, hl, hr, hnlt, hngt]

/-- Witness for C3: accept on a selected option holding `4` in `[0, 10]`. -/
theorem accept_keeps_value_witness :
    (processOptionItemControls
      { optioncount := 2, currentoption := 2, optionpress := true,
        leftpress := false, rightpress := false } 4 0 10 2).ret = true ∧
    (processOptionItemControls
      { optioncount := 2, currentoption := 2, optionpress := true,
        leftpress := false, rightpress := false } 4 0 10 2).var = 4 :=
  let h := accept_keeps_value
    { optioncount := 2, currentoption := 2, optionpress := true,
      leftpress := false, rightpress := false } 4 0 10 2 rfl rfl rfl rfl
    (by decide) (by decide)
  ⟨h.1, h.2.1⟩

/-- C4: return value.  For every value, bounds, step and menu state the call
returns `true` exactly when the option is the selected one and at least one of
`leftpress`, `rightpress`, `optionpress` is set; otherwise it returns `false`. -/
theorem ret_true_iff (m : Menu) (v min max step : Int) :
    ((processOptionItemControls m v min max step).ret = true ↔
      (m.currentoption = m.optioncount ∧
        (m.leftpress = true ∨ m.rightpress = true ∨ m.optionpress = true))) ∧
    (¬ (m.currentoption = m.optioncount ∧
        (m.leftpress = true ∨ m.rightpress = true ∨ m.optionpress = true)) →
      (processOptionItemControls m v min max step).ret = false) := by
  have key : (processOptionItemControls m v min max step).ret = true ↔
      (m.currentoption = m.optioncount ∧
        (m.leftpress = true ∨ m.rightpress = true ∨ m.optionpress = true)) := by
    unfold processOptionItemControls
    by_cases hsel : m.currentoption = m.optioncount
    · cases hl : m.leftpress <;> cases hr : m.rightpress <;> cases hop : m.optionpress <;>
        simp [hsel]
    · simp [hsel]
  refine ⟨key, ?_⟩
  intro hn
  cases hret : (processOptionItemControls m v min max step).ret
  · rfl
  · exact absurd (key.mp hret) hn

/-- Witness for C4: an unselected option with every press flag set returns
`false`; the selected option with only a right edge returns `true`. -/
theorem ret_true_iff_witness :
    (processOptionItemControls
      { optioncount := 1, currentoption := 0, optionpress := true,
        leftpress := true, rightpress := true } 4 0 10 2).ret = false ∧
    (processOptionItemControls
      { optioncount := 1, currentoption := 1, optionpress := false,
        leftpress := false, rightpress := true } 4 0 10 2).ret = true :=
  ⟨(ret_true_iff
      { optioncount := 1, currentoption := 0, optionpress := true,
        leftpress := true, rightpress := true } 4 0 10 2).2 (by decide),
   (ret_true_iff
      { optioncount := 1, currentoption := 1, optionpress := false,
        leftpress := false, rightpress := true } 4 0 10 2).1.mpr
      ⟨rfl, Or.inr (Or.inl rfl)⟩⟩

/-- C6: self-healing.  With `min ≤ max`, after a call for the selected option
with neither a left nor a right edge the value lies in `[min, max]`, whatever
it was before; a value already in `[min, max]` is unchanged. -/
theorem no_edge_heals (m : Menu) (v min max step : Int)
    (hsel : m.currentoption = m.optioncount)
    (hl : m.leftpress = false) (hr : m.rightpress = false) (hmm : min ≤ max) :
    min ≤ (processOptionItemControls m v min max step).var ∧
    (processOptionItemControls m v min max step).var ≤ max ∧
    (min ≤ v → v ≤ max → (processOptionItemControls m v min max step).var = v) := by
  simp only [processOptionItemControls, hsel, hl, hr, if_true, Bool.false_eq_true, if_false]
  by_cases hlt : v < min
  · have hnn : ¬ max > max := by omega
    simp only [hlt, if_true, hnn, if_false]
    exact ⟨hmm, le_refl _, fun h _ => absurd hlt (by omega)⟩
  · by_cases hgt : v > max
    · simp only [hlt, if_false, hgt, if_true]
      exact ⟨le_refl _, hmm, fun _ h => absurd hgt (by omega)⟩
    · simp only [hlt, if_false, hgt]
      exact ⟨by omega, by omega, by intros; trivial⟩

/-- Witness for C6: the value `15`, above `[0, 10]`, is brought back into range. -/
theorem no_edge_heals_witness :
    (0 : Int) ≤ (processOptionItemControls
      { optioncount := 1, currentoption := 1, optionpress := false,
        leftpress := false, rightpress := false } 15 0 10 2).var ∧
    (processOptionItemControls
      { optioncount := 1, currentoption := 1, optionpress := false,
        leftpress := false, rightpress := false } 15 0 10 2).var ≤ 10 :=
  let h := no_edge_heals
    { optioncount := 1, currentoption := 1, optionpress := false,
      leftpress := false, rightpress := false } 15 0 10 2 rfl rfl rfl (by decide)
  ⟨h.1, h.2.1⟩

/-- C7: an option that is not selected is never touched.  When
`currentoption ≠ optioncount` the call returns `false` and leaves the value,
`leftpress`, `rightpress`, `optionpress`, `currentoption` and `optioncount`
unchanged. -/
theorem unselected_untouched (m : Menu) (v min max step : Int)
    (hns : m.currentoption ≠ m.optioncount) :
    (processOptionItemControls m v min max step).ret = false ∧
    (processOptionItemControls m v min max step).var = v ∧
    (processOptionItemControls m v min max step).menu.leftpress = m.leftpress ∧
    (processOptionItemControls m v min max step).menu.rightpress = m.rightpress ∧
    (processOptionItemControls m v min max step).menu.optionpress = m.optionpress ∧
    (processOptionItemControls m v min max step).menu.currentoption = m.currentoption ∧
    (processOptionItemControls m v min max step).menu.optioncount = m.optioncount := by
  simp [processOptionItemControls, hns]

/-- Witness for C7: option `1` is declared while option `0` is selected, with
every press flag set. -/
theorem unselected_untouched_witness :
    (processOptionItemControls
      { optioncount := 1, currentoption := 0, optionpress := true,
        leftpress := true, rightpress := true } 4 0 10 2).ret = false ∧
    (processOptionItemControls
      { optioncount := 1, currentoption := 0, optionpress := true,
        leftpress := true, rightpress := true } 4 0 10 2).var = 4 :=
  let h := unselected_untouched
    { optioncount := 1, currentoption := 0, optionpress := true,
      leftpress := true, rightpress := true } 4 0 10 2 (by decide)
  ⟨h.1, h.2.1⟩

/-! ## Values outside the bounds -/

/-- A left edge on the selected option reads no upper bound: from a value above
`max` (with `min ≤ max`) the step is subtracted as it is. -/
theorem left_edge_above_max (m : Menu) (v min max step : Int)
    (hmm : min ≤ max) (hsel : m.currentoption = m.optioncount)
    (hl : m.leftpress = true) (hv : max < v) :
    (processOptionItemControls m v min max step).var = v - step := by
  have hn : ¬ v ≤ min := by omega
  simp [processOptionItemControls, hsel, hl, hn]

/-- C2 (as stated) fails: with bounds `[0, 10]`, step `2` and the selected
option, the value `-1` with no edge becomes `10` while its nearest bound is `0`;
the value `11` with no edge becomes `0`; a right edge from `-1` gives `0` while
a right edge from the nearest bound `0` gives `2`; a left edge from `11` gives
`9` while a left edge from the nearest bound `10` gives `8`.  Hence the call
does not in general agree with the call started from the nearest bound. -/
theorem snap_to_nearest_fails :
    (processOptionItemControls
      { optioncount := 0, currentoption := 0, optionpress := false,
        leftpress := false, rightpress := false } (-1) 0 10 2).var = 10 ∧
    (processOptionItemControls
      { optioncount := 0, currentoption := 0, optionpress := false,
        leftpress := false, rightpress := false } 11 0 10 2).var = 0 ∧
    (processOptionItemControls
      { optioncount := 0, currentoption := 0, optionpress := false,
        leftpress := false, rightpress := true } (-1) 0 10 2).var = 0 ∧
    (processOptionItemControls
      { optioncount := 0, currentoption := 0, optionpress := false,
        leftpress := false, rightpress := true } 0 0 10 2).var = 2 ∧
    (processOptionItemControls
      { optioncount := 0, currentoption := 0, optionpress := false,
        leftpress := true, rightpress := false } 11 0 10 2).var = 9 ∧
    (processOptionItemControls
      { optioncount := 0, currentoption := 0, optionpress := false,
        leftpress := true, rightpress := false } 10 0 10 2).var = 8 ∧
    ¬ (∀ (m : Menu) (v min max step : Int), min < max → 0 < step →
        m.currentoption = m.optioncount → (v < min ∨ max < v) →
        (processOptionItemControls m v min max step).var
          = (processOptionItemControls m (if v < min then min else max) min max step).var) := by
  refine ⟨by decide, by decide, by decide, by decide, by decide, by decide, ?_⟩
  intro h
  have h0 := h { optioncount := 0, currentoption := 0, optionpress := false,
                 leftpress := false, rightpress := false } (-1) 0 10 2
    (by decide) (by decide) rfl (Or.inl (by decide))
  revert h0
  decide

/-- C2 (amended): a value outside `[min, max]` wraps to the opposite bound.
For `min < max` and the selected option: with no left or right edge a value
below `min` becomes `max` and a value above `max` becomes `min`; a left edge
from below `min` gives `max`, and a right edge without a left edge from above
`max` gives `min` (these two agree with the same call started from the nearest
bound); a right edge without a left edge from below `min` gives `min`. -/
theorem out_of_range_wraps (m : Menu) (v min max step : Int)
    (hlt : min < max) (hsel : m.currentoption = m.optioncount)
    (hout : v < min ∨ max < v) :
    (m.leftpress = false → m.rightpress = false →
      (processOptionItemControls m v min max step).var = if v < min then max else min) ∧
    (m.leftpress = true → v < min →
      (processOptionItemControls m v min max step).var = max ∧
      (processOptionItemControls m v min max step).var
        = (processOptionItemControls m min min max step).var) ∧
    (m.leftpress = false → m.rightpress = true → max < v →
      (processOptionItemControls m v min max step).var = min ∧
      (processOptionItemControls m v min max step).var
        = (processOptionItemControls m max min max step).var) ∧
    (m.leftpress = false → m.rightpress = true → v < min →
      (processOptionItemControls m v min max step).var = min) := by
  refine ⟨?_, ?_, ?_, ?_⟩
  · intro hl hr
    rcases hout with hv | hv
    · simp [processOptionItemControls, hsel, hl, hr, hv]
    · have hnlt : ¬ v < min := by omega
      simp [processOptionItemControls, hsel, hl, hr, hv, hnlt]
  · intro hl hv
    have hle : v ≤ min := le_of_lt hv
    simp [processOptionItemControls, hsel, hl, hle]
  · intro hl hr hv
    have hnlt : ¬ v < min := by omega
    have hge : max ≤ v := le_of_lt hv
    have hnml : ¬ max < min := by omega
    simp [processOptionItemControls, hsel, hl, hr, hnlt, hge, hnml]
  · intro hl hr hv
    simp [processOptionItemControls, hsel, hl, hr, hv]

/-- Witness for C2 (amended): the selected option at `-1` below `[0, 10]`. -/
theorem out_of_range_wraps_witness :
    (processOptionItemControls
      { optioncount := 0, currentoption := 0, optionpress := false,
        leftpress := false, rightpress := false } (-1) 0 10 2).var
      = if (-1 : Int) < 0 then 10 else 0 :=
  (out_of_range_wraps
    { optioncount := 0, currentoption := 0, optionpress := false,
      leftpress := false, rightpress := false } (-1) 0 10 2
    (by decide) rfl (Or.inl (by decide))).1 rfl rfl

/-! ## Array-backed options with an empty list -/

/-- The stepper itself holds no guard for an empty range: called with the
bounds `[0, -1]` and step `1` for the selected option with a left edge, it
returns `true` and moves the index `0` to `-1`.  The suppression on an empty
list is therefore the work of the array-backed option. -/
theorem stepper_empty_bounds_unguarded :
    (processOptionItemControls32
      { optioncount := 0, currentoption := 0, optionpress := false,
        leftpress := true, rightpress := false } 0 0 (-1) 1).var = -1 ∧
    (processOptionItemControls32
      { optioncount := 0, currentoption := 0, optionpress := false,
        leftpress := true, rightpress := false } 0 0 (-1) 1).ret = true := by
  decide

/-- C8: the table `menuTimeDelays` is `240, 120, 75, 40, 20, 10`, strictly
decreasing with every entry positive; `menuTimeRepeat` and the initial value of
`menuTime` both equal its first entry `240`, which is the largest entry. -/
theorem menuTimeDelays_decreasing :
    menuTimeDelays = [240, 120, 75, 40, 20, 10] ∧
    List.Pairwise (fun a b => a > b) menuTimeDelays ∧
    (∀ d ∈ menuTimeDelays, 0 < d) ∧
    menuTimeDelays.head? = some 240 ∧
    menuTimeRepeat = 240 ∧
    menuTime = 240 ∧
    menuTime = menuTimeRepeat ∧
    menuTimeDelays.head? = some (menuTimeRepeat : Int) ∧
    (∀ d ∈ menuTimeDelays, d ≤ (menuTimeRepeat : Int)) := by
  refine ⟨rfl, by decide, by decide, rfl, by decide, by decide, rfl, by decide, by decide⟩

/-! ## Range and grid -/

/-- C9: range-and-grid invariant.  If `step > 0`, `min ≤ v ≤ max` and both
`v - min` and `max - min` are multiples of `step`, then after any call (any
selection state, any combination of the press flags) the new value is again in
`[min, max]` with its distance to `min` a multiple of `step`; the same holds
after any finite sequence of calls with the same `min`, `max` and `step`. -/
theorem range_grid_invariant (v min max step : Int)
    (hs : 0 < step) (h1 : min ≤ v) (h2 : v ≤ max)
    (hv : step ∣ (v - min)) (hm : step ∣ (max - min)) :
    (∀ m : Menu,
      min ≤ (processOptionItemControls m v min max step).var ∧
      (processOptionItemControls m v min max step).var ≤ max ∧
      step ∣ ((processOptionItemControls m v min max step).var - min)) ∧
    (∀ ms : List Menu,
      min ≤ runCalls ms v min max step ∧
      runCalls ms v min max step ≤ max ∧
      step ∣ (runCalls ms v min max step - min)) :=
  ⟨fun m => pOIC_grid m v min max step hs h1 h2 hv hm,
   fun ms => runCalls_grid ms min max step hs hm v h1 h2 hv⟩

/-- Witness for C9: from `4` on the grid `0, 2, …, 10`, a right edge, a
left-and-right edge and an unselected call in sequence. -/
theorem range_grid_invariant_witness :
    (0 : Int) ≤ runCalls
      [ { optioncount := 0, currentoption := 0, optionpress := false,
          leftpress := false, rightpress := true },
        { optioncount := 0, currentoption := 0, optionpress := true,
          leftpress := true, rightpress := true },
        { optioncount := 1, currentoption := 0, optionpress := false,
          leftpress := true, rightpress := false } ] 4 0 10 2 ∧
    runCalls
      [ { optioncount := 0, currentoption := 0, optionpress := false,
          leftpress := false, rightpress := true },
        { optioncount := 0, currentoption := 0, optionpress := true,
          leftpress := true, rightpress := true },
        { optioncount := 1, currentoption := 0, optionpress := false,
          leftpress := true, rightpress := false } ] 4 0 10 2 ≤ 10 :=
  let h := (range_grid_invariant 4 0 10 2 (by decide) (by decide) (by decide)
    ⟨2, by decide⟩ ⟨5, by decide⟩).2
      [ { optioncount := 0, currentoption := 0, optionpress := false,
          leftpress := false, rightpress := true },
        { optioncount := 0, currentoption := 0, optionpress := true,
          leftpress := true, rightpress := true },
        { optioncount := 1, currentoption := 0, optionpress := false,
          leftpress := true, rightpress := false } ]
  ⟨h.1, h.2.1⟩

/-! ## Consumption of the left and right edges -/

/-- C10: edge consumption and priority for the selected option, at `T = int`.
With `leftpress` set, the left rule alone is applied (`max` when `v ≤ min`,
otherwise `v - step` in 32-bit arithmetic, the same value as without a pending
right edge), `leftpress` is cleared and `rightpress` keeps its value; with
`leftpress` clear and `rightpress` set, `rightpress` is cleared.  No call, selected or not, modifies `optionpress`,
`currentoption` or `optioncount`.  A second call on the state left by a handled
left-only or right-only edge finds both flags clear and applies no step: it
changes nothing in the menu, returns `optionpress`, leaves a value within
`[min, max]` as it is, and only wraps a value outside the bounds. -/
theorem edge_consumption (m : Menu) (v min max step : Int)
    (hsel : m.currentoption = m.optioncount) :
    (m.leftpress = true →
      (processOptionItemControls32 m v min max step).var
        = (if v ≤ min then max else wrapInt32 (v - step)) ∧
      (processOptionItemControls32 m v min max step).var
        = (processOptionItemControls32 { m with rightpress := false } v min max step).var ∧
      (processOptionItemControls32 m v min max step).menu.leftpress = false ∧
      (processOptionItemControls32 m v min max step).menu.rightpress = m.rightpress) ∧
    (m.leftpress = false → m.rightpress = true →
      (processOptionItemControls32 m v min max step).menu.rightpress = false ∧
      (processOptionItemControls32 m v min max step).menu.leftpress = false) ∧
    (∀ (m0 : Menu) (v0 min0 max0 step0 : Int),
      (processOptionItemControls32 m0 v0 min0 max0 step0).menu.optionpress = m0.optionpress ∧
      (processOptionItemControls32 m0 v0 min0 max0 step0).menu.currentoption
        = m0.currentoption ∧
      (processOptionItemControls32 m0 v0 min0 max0 step0).menu.optioncount
        = m0.optioncount) ∧
    ((m.leftpress = true ∧ m.rightpress = false) ∨
        (m.leftpress = false ∧ m.rightpress = true) →
      (processOptionItemControls32
          (processOptionItemControls32 m v min max step).menu
          (processOptionItemControls32 m v min max step).var min max step).menu
        = (processOptionItemControls32 m v min max step).menu ∧
      (processOptionItemControls32
          (processOptionItemControls32 m v min max step).menu
          (processOptionItemControls32 m v min max step).var min max step).ret
        = m.optionpress ∧
      (processOptionItemControls32
          (processOptionItemControls32 m v min max step).menu
          (processOptionItemControls32 m v min max step).var min max step).var
        = (if (if (processOptionItemControls32 m v min max step).var < min then max
               else (processOptionItemControls32 m v min max step).var) > max
           then min
           else (if (processOptionItemControls32 m v min max step).var < min then max
                 else (processOptionItemControls32 m v min max step).var)) ∧
      (min ≤ (processOptionItemControls32 m v min max step).var →
        (processOptionItemControls32 m v min max step).var ≤ max →
        (processOptionItemControls32
            (processOptionItemControls32 m v min max step).menu
            (processOptionItemControls32 m v min max step).var min max step).var
          = (processOptionItemControls32 m v min max step).var)) := by
  refine ⟨?_, ?_, ?_, ?_⟩
  · intro hl
    simp [processOptionItemControls32, hsel, hl]
  · intro hl hr
    simp [processOptionItemControls32, hsel, hl, hr]
  · intro m0 v0 min0 max0 step0
    exact pOIC32_frame m0 v0 min0 max0 step0
  · intro hlr
    -- the state left by the first call: selected, both flags clear
    obtain ⟨_, hco, hcn⟩ := pOIC32_frame m v min max step
    have hop := (pOIC32_frame m v min max step).1
    have hsel1 : (processOptionItemControls32 m v min max step).menu.currentoption
        = (processOptionItemControls32 m v min max step).menu.optioncount := by
      rw [hco, hcn]; exact hsel
    have hflags : (processOptionItemControls32 m v min max step).menu.leftpress = false ∧
        (processOptionItemControls32 m v min max step).menu.rightpress = false := by
      rcases hlr with ⟨hl, hr⟩ | ⟨hl, hr⟩
      · simp [processOptionItemControls32, hsel, hl, hr]
      · simp [processOptionItemControls32, hsel, hl, hr]
    obtain ⟨hl1, hr1⟩ := hflags
    generalize processOptionItemControls32 m v min max step = o at *
    refine ⟨?_, ?_, ?_, ?_⟩
    · simp [processOptionItemControls32, hsel1, hl1, hr1]
    · simp [processOptionItemControls32, hsel1, hl1, hr1, hop]
    · simp [processOptionItemControls32, hsel1, hl1, hr1]
    · intro g1 g2
      have hnlt : ¬ o.var < min := by omega
      have hngt : ¬ max < o.var := by omega
      simp [processOptionItemControls32, hsel1, hl1, hr1, hnlt, hngt]

/-- Witness for C10: left and right both pending on the selected option at `4`
in `[0, 10]` with step `2`: the value steps left to `2`, `leftpress` is cleared
and `rightpress` stays set. -/
theorem edge_consumption_witness :
    (processOptionItemControls32
      { optioncount := 0, currentoption := 0, optionpress := false,
        leftpress := true, rightpress := true } 4 0 10 2).var
      = (if (4 : Int) ≤ 0 then 10 else wrapInt32 (4 - 2)) ∧
    (processOptionItemControls32
      { optioncount := 0, currentoption := 0, optionpress := false,
        leftpress := true, rightpress := true } 4 0 10 2).menu.leftpress = false ∧
    (processOptionItemControls32
      { optioncount := 0, currentoption := 0, optionpress := false,
        leftpress := true, rightpress := true } 4 0 10 2).menu.rightpress = true :=
  let h := (edge_consumption
    { optioncount := 0, currentoption := 0, optionpress := false,
      leftpress := true, rightpress := true } 4 0 10 2 rfl).1 rfl
  ⟨h.1, h.2.2.1, h.2.2.2⟩

end NativeMenu
